import Mathlib

/-!
# gads: campaign and campaign-extension-setting bindings

A shallow embedding of `campaign.go` and `campaign_extension_setting.go`.

* Go pointers to optional values are `Option`; slices are `List`; `int64` is `Int`.
* `encoding/xml` is not part of the repository.  Its decoder is a token list followed by a
  terminal error, and what it decodes out of an element is supplied by an `XmlLib` of
  unconstrained functions, so that every theorem holds for whatever the library decodes.
* Package-level items of the repository that the two files use but do not declare
  (`findAttr`, `StrictMode`, `ERROR_NOT_YET_IMPLEMENTED`) are the fields of `Pkg`.
-/

namespace Gads

/-! ## Errors -/

/-- One entry of a response's `PartialFailureErrors`; its declaration is outside the two files,
so the entry is carried as its rendered text. -/
structure PartialFailureError where
  text : String
  deriving DecidableEq, Repr

/-- Go `error` values met in the two files. -/
inductive Error where
  /-- The end-of-input error `io.EOF`. -/
  | eof
  /-- An error raised by a library (a syntax error of the XML reader, a transport error). -/
  | lib (text : String)
  /-- The value of `fmt.Errorf(format, arg)`, kept symbolic. -/
  | errorf (format : String) (arg : String)
  /-- A response's `PartialFailureErrors` used as an error. -/
  | failures (errs : List PartialFailureError)
  deriving DecidableEq, Repr

/-! ## encoding/xml -/

/-- Go `xml.Name`. -/
structure Name where
  Space : String
  Local : String
  deriving DecidableEq, Repr

/-- Go `xml.Attr`. -/
structure Attr where
  Name : Name
  Value : String
  deriving DecidableEq, Repr

/-- Go `xml.StartElement`. -/
structure StartElement where
  Name : Name
  Attr : List Attr
  deriving DecidableEq, Repr

/-- Go `xml.Token`: a start element, or any of the other token kinds. -/
inductive Token where
  | startElement (start : StartElement)
  | endElement (name : Name)
  | charData (text : String)
  | comment (text : String)
  | procInst (target : String) (inst : String)
  | directive (text : String)
  deriving DecidableEq, Repr

/-- Go `*xml.Decoder`: the tokens still to be read, and the error `Token()` reports once they
are exhausted (`io.EOF` at the end of a well-formed input, a syntax or read error otherwise).
Inside an `UnmarshalXML` method the input is the content of the element being decoded: the
library makes `Token()` report `io.EOF` at the end tag of that element. -/
structure Decoder where
  toks : List Token
  fin : Error
  deriving DecidableEq, Repr

/-- Go `dec.Token()`: the next token and the advanced decoder, or the terminal error. -/
def Decoder.Token (dec : Decoder) : Except Error Token × Decoder :=
  match dec.toks with
  | [] => (.error dec.fin, dec)
  | t :: rest => (.ok t, { dec with toks := rest })

/-- The decoder after `n` further tokens were read. -/
def Decoder.advance (dec : Decoder) (n : Nat) : Decoder :=
  { dec with toks := dec.toks.drop n }

/-- What the library makes of one `DecodeElement(v, &start)` call: the value left in `v`, the
error returned, and how many tokens following the start element were read. -/
structure Decoded (α : Type) where
  value : α
  err : Option Error
  consumed : Nat

/-- The name of the `xsi:type` attribute. -/
def xsiType : Name :=
  { Space := "http://www.w3.org/2001/XMLSchema-instance", Local := "type" }

/-- The library's treatment of a string field tagged
`xml:"http://www.w3.org/2001/XMLSchema-instance type,attr"`: the attributes of the start
element are visited in order and each one bearing that name is stored into the field. -/
def assignTypeAttr (attrs : List Attr) (ty : String) : String :=
  attrs.foldl (fun t a => if a.Name = xsiType then a.Value else t) ty

/-! ## Bidding schemes (campaign.go) -/

/-- Go `float64`, carried as its bit pattern; no arithmetic is performed on it here. -/
structure Float64 where
  bits : Nat
  deriving DecidableEq, Repr

/-- Go `BiddingScheme`, the struct for ManualCpcBiddingScheme. -/
structure BiddingScheme where
  Type_ : String
  EnhancedCpcEnabled : Bool
  deriving DecidableEq, Repr

/-- Go `TargetRoasBiddingScheme`. -/
structure TargetRoasBiddingScheme where
  Type_ : String
  TargetRoas : Float64
  BidCeiling : Option Int
  BidFloor : Option Int
  deriving DecidableEq, Repr

/-- A non-nil value of Go `BiddingSchemeInterface`: a pointer to one of the two structs that
implement `GetType`.  The nil interface is `none` of `Option BiddingSchemeInterface`. -/
inductive BiddingSchemeInterface where
  | manualCpc (s : BiddingScheme)
  | targetRoas (s : TargetRoasBiddingScheme)
  deriving DecidableEq, Repr

/-- Go `NewBiddingScheme`. -/
def NewBiddingScheme (enhancedCpcEnabled : Bool) : BiddingScheme :=
  { Type_ := "ManualCpcBiddingScheme", EnhancedCpcEnabled := enhancedCpcEnabled }

/-- Go `(*BiddingScheme).GetType`. -/
def BiddingScheme.GetType (s : BiddingScheme) : String := s.Type_

/-- Go `NewTargetRoasBiddingScheme`. -/
def NewTargetRoasBiddingScheme (targetRoas : Float64) (bidCeiling bidFloor : Option Int) :
    TargetRoasBiddingScheme :=
  { Type_ := "TargetRoasBiddingScheme", TargetRoas := targetRoas,
    BidCeiling := bidCeiling, BidFloor := bidFloor }

/-- Go `(*TargetRoasBiddingScheme).GetType`. -/
def TargetRoasBiddingScheme.GetType (s : TargetRoasBiddingScheme) : String := s.Type_

/-- Go `GetType` called through the interface. -/
def BiddingSchemeInterface.GetType : BiddingSchemeInterface → String
  | .manualCpc s => s.GetType
  | .targetRoas s => s.GetType

/-- Go `Bid`. -/
structure Bid where
  Type_ : String
  Amount : Int
  CpcBidSource : Option String
  CpmBidSource : Option String
  deriving DecidableEq, Repr

/-- Go `BiddingStrategyConfiguration`. -/
structure BiddingStrategyConfiguration where
  StrategyId : Int := 0
  StrategyName : String := ""
  StrategyType : String := ""
  StrategySource : String := ""
  Scheme : Option BiddingSchemeInterface := none
  Bids : List Bid := []
  deriving DecidableEq, Repr

/-! ## Extension feed items (campaign_extension_setting.go) -/

/-- Go `SitelinkFeedItem`.  Its declaration is outside the two files; the code reads and writes
its `Type` field (here `Type_`) only, and the remaining fields are carried as name and value pairs. -/
structure SitelinkFeedItem where
  Type_ : String := ""
  Fields : List (String × String) := []
  deriving DecidableEq, Repr

/-- A value of the Go interface `ExtensionFeedItem`: a `SitelinkFeedItem` value, or a value of
any other dynamic type (named by `goType`). -/
inductive ExtensionFeedItem where
  | sitelink (item : SitelinkFeedItem)
  | other (goType : String) (fields : List (String × String))
  deriving DecidableEq, Repr

/-- Go `ExtensionFeedItems`. -/
abbrev ExtensionFeedItems := List ExtensionFeedItem

/-- Go `ExtensionSetting`. -/
structure ExtensionSetting where
  Extensions : ExtensionFeedItems
  PlateformRestrictions : String
  deriving DecidableEq, Repr

/-- Go `CampaignExtensionSetting`. -/
structure CampaignExtensionSetting where
  CampaignID : Int
  ExtensionType : String
  ExtensionSetting : Option ExtensionSetting
  deriving DecidableEq, Repr

/-! ## The library and the package -/

/-- What `encoding/xml` decodes.  Each field answers one kind of `DecodeElement` call from the
value held before the call, the start element and the tokens that follow it. -/
structure XmlLib where
  int64 : Int → StartElement → List Token → Decoded Int
  string : String → StartElement → List Token → Decoded String
  bids : List Bid → StartElement → List Token → Decoded (List Bid)
  manualCpc : BiddingScheme → StartElement → List Token → Decoded BiddingScheme
  targetRoas : TargetRoasBiddingScheme → StartElement → List Token →
    Decoded TargetRoasBiddingScheme
  sitelink : SitelinkFeedItem → StartElement → List Token → Decoded SitelinkFeedItem

/-- Package-level items used by the two files and declared elsewhere in the repository. -/
structure Pkg where
  /-- The package variable `StrictMode`. -/
  StrictMode : Bool
  /-- The helper `findAttr(attrs, name)`, returning the attribute value or an error. -/
  findAttr : List Attr → Name → Except Error String
  /-- The package error value `ERROR_NOT_YET_IMPLEMENTED`. -/
  ERROR_NOT_YET_IMPLEMENTED : Error

/-- Go `dec.DecodeElement(v, &start)` answered by the library function `f`. -/
def Decoder.DecodeElement {α : Type} (dec : Decoder)
    (f : α → StartElement → List Gads.Token → Decoded α) (v : α) (start : StartElement) :
    α × Option Error × Decoder :=
  let r := f v start dec.toks
  (r.value, r.err, dec.advance r.consumed)

/-- Go `dec.DecodeElement(c, &start)` for `c *BiddingScheme`: the `Type` field is an
attribute field, filled from the start element; the rest is the library's answer. -/
def Decoder.DecodeBiddingScheme (dec : Decoder) (lib : XmlLib) (c : BiddingScheme)
    (start : StartElement) : BiddingScheme × Option Error × Decoder :=
  let r := dec.DecodeElement lib.manualCpc c start
  ({ r.1 with Type_ := assignTypeAttr start.Attr c.Type_ }, r.2)

/-- Go `dec.DecodeElement(c, &start)` for `c *TargetRoasBiddingScheme`. -/
def Decoder.DecodeTargetRoas (dec : Decoder) (lib : XmlLib) (c : TargetRoasBiddingScheme)
    (start : StartElement) : TargetRoasBiddingScheme × Option Error × Decoder :=
  let r := dec.DecodeElement lib.targetRoas c start
  ({ r.1 with Type_ := assignTypeAttr start.Attr c.Type_ }, r.2)

/-- Go `biddingSchemeUnmarshalXML`: the scheme (nil is `none`), the error, the decoder. -/
def biddingSchemeUnmarshalXML (pkg : Pkg) (lib : XmlLib) (dec : Decoder)
    (start : StartElement) : Option BiddingSchemeInterface × Option Error × Decoder :=
  match pkg.findAttr start.Attr xsiType with
  | .error err => (none, some err, dec)
  | .ok biddingSchemeType =>
    if biddingSchemeType = "ManualCpcBiddingScheme" then
      let c : BiddingScheme := { Type_ := biddingSchemeType, EnhancedCpcEnabled := false }
      let r := dec.DecodeBiddingScheme lib c start
      (some (.manualCpc r.1), r.2)
    else if biddingSchemeType = "TargetRoasBiddingScheme" then
      let c : TargetRoasBiddingScheme :=
        { Type_ := biddingSchemeType, TargetRoas := ⟨0⟩, BidCeiling := none, BidFloor := none }
      let r := dec.DecodeTargetRoas lib c start
      (some (.targetRoas r.1), r.2)
    else if pkg.StrictMode then
      (none, some (.errorf "unknown bidding scheme type %#v" biddingSchemeType), dec)
    else
      (none, none, dec)

/-- One pass through the body of the `for` loop of
`BiddingStrategyConfiguration.UnmarshalXML`, on a token that `dec.Token()` returned without
error: the configuration, the error the body returns with (`none` when it runs to its end),
and the decoder. -/
def BiddingStrategyConfiguration.body (pkg : Pkg) (lib : XmlLib)
    (b : BiddingStrategyConfiguration) (dec : Decoder) (token : Token) :
    BiddingStrategyConfiguration × Option Error × Decoder :=
  match token with
  | .startElement start =>
    if start.Name.Local = "biddingStrategyId" then
      let r := dec.DecodeElement lib.int64 b.StrategyId start
      ({ b with StrategyId := r.1 }, r.2)
    else if start.Name.Local = "biddingStrategyName" then
      let r := dec.DecodeElement lib.string b.StrategyName start
      ({ b with StrategyName := r.1 }, r.2)
    else if start.Name.Local = "biddingStrategyType" then
      let r := dec.DecodeElement lib.string b.StrategyType start
      ({ b with StrategyType := r.1 }, r.2)
    else if start.Name.Local = "biddingStrategySource" then
      let r := dec.DecodeElement lib.string b.StrategySource start
      ({ b with StrategySource := r.1 }, r.2)
    else if start.Name.Local = "biddingScheme" then
      let r := biddingSchemeUnmarshalXML pkg lib dec start
      match r.2.1 with
      | some err => (b, some err, r.2.2)
      | none => ({ b with Scheme := r.1 }, none, r.2.2)
    else if start.Name.Local = "bids" then
      let r := dec.DecodeElement lib.bids b.Bids start
      ({ b with Bids := r.1 }, r.2)
    else
      (b, none, dec)
  | _ => (b, none, dec)

/-- The `for token, err := dec.Token(); err == nil; token, err = dec.Token()` loop of
`BiddingStrategyConfiguration.UnmarshalXML`, followed by its `return nil`.  The loop condition
leaves the loop as soon as `dec.Token()` reports an error, whichever error it is, so the
`if err != nil` test at the head of the body never fires.  The first argument bounds the
number of passes; `UnmarshalXML` supplies one more than the number of tokens left. -/
def BiddingStrategyConfiguration.loop (pkg : Pkg) (lib : XmlLib) :
    Nat → BiddingStrategyConfiguration → Decoder →
      BiddingStrategyConfiguration × Option Error × Decoder
  | 0, b, dec => (b, none, dec)
  | fuel + 1, b, dec =>
    match dec.Token with
    | (.error _, dec1) => (b, none, dec1)
    | (.ok token, dec1) =>
      let r := BiddingStrategyConfiguration.body pkg lib b dec1 token
      match r.2.1 with
      | some err => (r.1, some err, r.2.2)
      | none => BiddingStrategyConfiguration.loop pkg lib fuel r.1 r.2.2

/-- Go `(*BiddingStrategyConfiguration).UnmarshalXML`.  The `start` argument is shadowed
inside the loop and never read. -/
def BiddingStrategyConfiguration.UnmarshalXML (pkg : Pkg) (lib : XmlLib)
    (b : BiddingStrategyConfiguration) (dec : Decoder) (_start : StartElement) :
    BiddingStrategyConfiguration × Option Error × Decoder :=
  BiddingStrategyConfiguration.loop pkg lib (dec.toks.length + 1) b dec

/-! ## Campaign extension settings (campaign_extension_setting.go) -/

/-- Go `(*CampaignExtensionSetting).GetSitelinks`: the receiver as the call leaves it, and the
returned slice.  The method only reads through its receiver. -/
def CampaignExtensionSetting.GetSitelinks (c : CampaignExtensionSetting) :
    CampaignExtensionSetting × List SitelinkFeedItem :=
  match c.ExtensionSetting with
  | none => (c, [])
  | some setting =>
    (c, setting.Extensions.foldl
      (fun sitelinks extension =>
        match extension with
        | .sitelink sitelink => sitelinks ++ [sitelink]
        | _ => sitelinks)
      [])

/-- Go `(*ExtensionFeedItems).UnmarshalXML`: the list as the call leaves it, the error, the
decoder. -/
def ExtensionFeedItems.UnmarshalXML (pkg : Pkg) (lib : XmlLib) (ex : ExtensionFeedItems)
    (dec : Decoder) (start : StartElement) : ExtensionFeedItems × Option Error × Decoder :=
  match pkg.findAttr start.Attr xsiType with
  | .error err => (ex, some err, dec)
  | .ok feedItemType =>
    if feedItemType = "SitelinkFeedItem" then
      let r := dec.DecodeElement lib.sitelink ({} : SitelinkFeedItem) start
      match r.2.1 with
      | some err => (ex, some err, r.2.2)
      | none => (ex ++ [.sitelink { r.1 with Type_ := "SitelinkFeedItem" }], none, r.2.2)
    else if pkg.StrictMode then
      (ex, some (.errorf "unknown feed item type -> %#v" feedItemType), dec)
    else
      (ex, none, dec)

/-! ## Campaigns (campaign.go) -/

/-- Go `conversionOptimizerEligibility`. -/
structure conversionOptimizerEligibility where
  Eligible : Bool
  RejectionReasons : List String
  deriving DecidableEq, Repr

/-- Go `FrequencyCap`. -/
structure FrequencyCap where
  Impressions : Int
  TimeUnit : String
  Level : String
  deriving DecidableEq, Repr

/-- Go `CampaignSetting`. -/
structure CampaignSetting where
  XMLName : Name
  Type_ : String
  PositiveGeoTargetType : Option String
  NegativeGeoTargetType : Option String
  OptIn : Option Bool
  DomainName : Option String
  LanguageCode : Option String
  TrackingUrl : Option String
  MerchantId : Option Int
  SalesCountry : Option String
  CampaignPriority : Option Int
  EnableLocal : Option Bool
  deriving DecidableEq, Repr

/-- Go `NetworkSetting`. -/
structure NetworkSetting where
  TargetGoogleSearch : Bool
  TargetSearchNetwork : Bool
  TargetContentNetwork : Bool
  TargetPartnerSearchNetwork : Bool
  deriving DecidableEq, Repr

/-- Go `Label`; declared outside the two files and carried as name and value pairs. -/
structure Label where
  Fields : List (String × String)
  deriving DecidableEq, Repr

/-- Go `CustomParameter`. -/
structure CustomParameter where
  Key : String
  Value : String
  IsRemove : Bool
  deriving DecidableEq, Repr

/-- Go `CustomParameters`. -/
structure CustomParameters where
  CustomParameters : List CustomParameter
  DoReplace : Bool
  deriving DecidableEq, Repr

/-- Go `Campaign`. -/
structure Campaign where
  Id : Int
  Name : String
  Status : String
  ServingStatus : Option String
  StartDate : String
  EndDate : Option String
  BudgetId : Int
  ConversionOptimizerEligibility : Option conversionOptimizerEligibility
  AdServingOptimizationStatus : String
  FrequencyCap : Option FrequencyCap
  Settings : List CampaignSetting
  AdvertisingChannelType : String
  AdvertisingChannelSubType : Option String
  NetworkSetting : Option NetworkSetting
  Labels : List Label
  BiddingStrategyConfiguration : Option BiddingStrategyConfiguration
  ForwardCompatibilityMap : Option (List (String × String))
  TrackingUrlTemplate : Option String
  UrlCustomParameters : Option CustomParameters
  BaseCampaignID : Option Int
  CampaignTrialType : Option String
  Errors : List Error
  deriving DecidableEq, Repr

/-- Go `CampaignOperations`, a `map[string][]Campaign`: its entries in the order in which the
`range` loop of `Mutate` visits them. -/
abbrev CampaignOperations := List (String × List Campaign)

/-- Go `CampaignLabel`. -/
structure CampaignLabel where
  CampaignId : Int
  LabelId : Int
  deriving DecidableEq, Repr

/-- Go `CampaignLabelOperations`, entries in visiting order. -/
abbrev CampaignLabelOperations := List (String × List CampaignLabel)

/-- Go `CampaignExtensionSettingOperations`, entries in visiting order. -/
abbrev CampaignExtensionSettingOperations := List (String × List CampaignExtensionSetting)

/-- The local struct types `campaignOperation`, `campaignLabelOperation` and `operation` of the
three mutate methods: an operator and an operand. -/
structure Operation (α : Type) where
  Action : String
  Operand : α
  deriving DecidableEq, Repr

/-- The anonymous `mutation` struct of the mutate methods. -/
structure Mutation (α : Type) where
  XMLName : Name
  Ops : List (Operation α)
  deriving DecidableEq, Repr

/-- The request bodies handed to `Auth.request` by the three mutate methods. -/
inductive RequestBody where
  | campaigns (mutation : Mutation Campaign)
  | campaignLabels (mutation : Mutation CampaignLabel)
  | extensionSettings (mutation : Mutation CampaignExtensionSetting)
  deriving DecidableEq, Repr

/-- One call of `Auth.request(url, action, body)`. -/
structure Request where
  url : String
  action : String
  body : RequestBody
  deriving DecidableEq, Repr

/-- Go `Auth`, the shared transport, declared outside the two files: what the remote end
answers to a request (response body and error), and the requests issued so far. -/
structure Auth where
  answer : Request → String × Option Error
  sent : List Request

/-- Go `(*Auth).request`: the response body and error, and the transport with the request
recorded. -/
def Auth.request (auth : Auth) (url : String) (action : String) (body : RequestBody) :
    (String × Option Error) × Auth :=
  let req : Request := { url := url, action := action, body := body }
  (auth.answer req, { auth with sent := auth.sent ++ [req] })

/-- The anonymous `mutateResp` struct of the mutate methods: the embedded `BaseResponse`
contributes `PartialFailureErrors`, and `Values` is the field tagged `rval>value`. -/
structure MutateResp (α : Type) where
  PartialFailureErrors : List PartialFailureError := []
  Values : List α := []

/-- Go `xml.Unmarshal(respBody, &mutateResp)` for the three response shapes: the value left
in `mutateResp` and the error. -/
structure Unmarshal where
  campaigns : String → MutateResp Campaign → MutateResp Campaign × Option Error
  campaignLabels : String → MutateResp CampaignLabel → MutateResp CampaignLabel × Option Error
  extensionSettings : String → MutateResp CampaignExtensionSetting →
    MutateResp CampaignExtensionSetting × Option Error

/-- Service addresses and the namespace, constants declared outside the two files. -/
structure Urls where
  baseUrl : String
  campaignServiceUrl : String
  campaignExtensionSettingServiceUrl : String

/-- Go `CampaignService`. -/
structure CampaignService where
  Auth : Auth

/-- Go `CampaignExtensionSettingService`. -/
structure CampaignExtensionSettingService where
  Auth : Auth

/-- The two nested `range` loops of `CampaignService.Mutate` that fill `operations`. -/
def CampaignService.mutateOperations (campaignOperations : CampaignOperations) :
    List (Operation Campaign) :=
  campaignOperations.foldl
    (fun operations entry =>
      entry.2.foldl
        (fun operations campaign =>
          let campaign := { campaign with CampaignTrialType := none }
          let campaign := { campaign with AdServingOptimizationStatus := "" }
          operations ++ [{ Action := entry.1, Operand := campaign }])
        operations)
    []

/-- The tail shared by the three mutate methods, from the check of the transport error on:
`resp` is what `Auth.request` returned and `unmarshal` is `xml.Unmarshal` into `mutateResp`.
The named result is still nil on the two early returns. -/
def mutateReturn {α : Type} (resp : String × Option Error)
    (unmarshal : String → MutateResp α → MutateResp α × Option Error) :
    List α × Option Error :=
  match resp.2 with
  | some err => ([], some err)
  | none =>
    let r := unmarshal resp.1 {}
    match r.2 with
    | some err => ([], some err)
    | none =>
      if r.1.PartialFailureErrors.length > 0 then
        (r.1.Values, some (.failures r.1.PartialFailureErrors))
      else
        (r.1.Values, none)

/-- Go `(*CampaignService).Mutate`: the results, and the service with its transport. -/
def CampaignService.Mutate (urls : Urls) (um : Unmarshal) (s : CampaignService)
    (campaignOperations : CampaignOperations) :
    (List Campaign × Option Error) × CampaignService :=
  let operations := CampaignService.mutateOperations campaignOperations
  let mutation : Mutation Campaign :=
    { XMLName := { Space := urls.baseUrl, Local := "mutate" }, Ops := operations }
  let r := s.Auth.request urls.campaignServiceUrl "mutate" (.campaigns mutation)
  (mutateReturn r.1 um.campaigns, { s with Auth := r.2 })

/-- The two nested `range` loops of `CampaignService.MutateLabel`. -/
def CampaignService.mutateLabelOperations (campaignLabelOperations : CampaignLabelOperations) :
    List (Operation CampaignLabel) :=
  campaignLabelOperations.foldl
    (fun operations entry =>
      entry.2.foldl
        (fun operations campaignLabel =>
          operations ++ [{ Action := entry.1, Operand := campaignLabel }])
        operations)
    []

/-- Go `(*CampaignService).MutateLabel`. -/
def CampaignService.MutateLabel (urls : Urls) (um : Unmarshal) (s : CampaignService)
    (campaignLabelOperations : CampaignLabelOperations) :
    (List CampaignLabel × Option Error) × CampaignService :=
  let operations := CampaignService.mutateLabelOperations campaignLabelOperations
  let mutation : Mutation CampaignLabel :=
    { XMLName := { Space := urls.baseUrl, Local := "mutateLabel" }, Ops := operations }
  let r := s.Auth.request urls.campaignServiceUrl "mutateLabel" (.campaignLabels mutation)
  (mutateReturn r.1 um.campaignLabels, { s with Auth := r.2 })

/-- The two nested `range` loops of `CampaignExtensionSettingService.Mutate`. -/
def CampaignExtensionSettingService.mutateOperations
    (campaignExtensionSettingOperations : CampaignExtensionSettingOperations) :
    List (Operation CampaignExtensionSetting) :=
  campaignExtensionSettingOperations.foldl
    (fun operations entry =>
      entry.2.foldl
        (fun operations campaignExtensionSetting =>
          operations ++ [{ Action := entry.1, Operand := campaignExtensionSetting }])
        operations)
    []

/-- Go `(*CampaignExtensionSettingService).Mutate`. -/
def CampaignExtensionSettingService.Mutate (urls : Urls) (um : Unmarshal)
    (s : CampaignExtensionSettingService)
    (campaignExtensionSettingOperations : CampaignExtensionSettingOperations) :
    (List CampaignExtensionSetting × Option Error) × CampaignExtensionSettingService :=
  let operations :=
    CampaignExtensionSettingService.mutateOperations campaignExtensionSettingOperations
  let mutation : Mutation CampaignExtensionSetting :=
    { XMLName := { Space := urls.baseUrl, Local := "mutate" }, Ops := operations }
  let r := s.Auth.request urls.campaignExtensionSettingServiceUrl "mutate"
    (.extensionSettings mutation)
  (mutateReturn r.1 um.extensionSettings, { s with Auth := r.2 })

/-- Go `(*CampaignService).Query`: the three named results, returned as they stand (nil
slice, zero count) with `ERROR_NOT_YET_IMPLEMENTED`, and the service, which is not used. -/
def CampaignService.Query (pkg : Pkg) (s : CampaignService) (_query : String) :
    (List Campaign × Int × Option Error) × CampaignService :=
  (([], 0, some pkg.ERROR_NOT_YET_IMPLEMENTED), s)

/-! ## Sample instances

Concrete instances of the parameters, on which the theorems are evaluated. -/

/-- A `findAttr` that returns the value of the first attribute bearing the name, and an error
when there is none. -/
def firstAttr (attrs : List Attr) (name : Name) : Except Error String :=
  match attrs.find? (fun a => decide (a.Name = name)) with
  | some a => .ok a.Value
  | none => .error (.lib "attribute not found")

/-- The number of tokens up to and including the end element that closes the element opened
`depth` levels above; `none` when the input ends first. -/
def closing : Nat → List Token → Option Nat
  | _, [] => none
  | 0, .endElement _ :: _ => some 1
  | depth + 1, .endElement _ :: rest => (closing depth rest).map (· + 1)
  | depth, .startElement _ :: rest => (closing (depth + 1) rest).map (· + 1)
  | depth, _ :: rest => (closing depth rest).map (· + 1)

/-- A decode that reads the element through to its end tag and leaves the value as it was;
it fails when the input ends inside the element. -/
def skipElement {α : Type} (v : α) (_start : StartElement) (toks : List Token) : Decoded α :=
  match closing 0 toks with
  | some n => { value := v, err := none, consumed := n }
  | none => { value := v, err := some (.lib "unexpected EOF"), consumed := toks.length }

/-- The character data that opens a token list. -/
def leadingText : List Token → String
  | .charData text :: rest => text ++ leadingText rest
  | _ => ""

/-- A decode into a string: the element is read through to its end tag and its leading
character data is stored. -/
def textElement (v : String) (_start : StartElement) (toks : List Token) : Decoded String :=
  match closing 0 toks with
  | some n => { value := leadingText toks, err := none, consumed := n }
  | none => { value := v, err := some (.lib "unexpected EOF"), consumed := toks.length }

/-- A library that stores the text of string elements and skips every other element. -/
def skipLib : XmlLib :=
  { int64 := skipElement, string := textElement, bids := skipElement,
    manualCpc := skipElement, targetRoas := skipElement, sitelink := skipElement }

/-- A package in strict mode. -/
def strictPkg : Pkg :=
  { StrictMode := true, findAttr := firstAttr,
    ERROR_NOT_YET_IMPLEMENTED := .lib "Not yet implemented" }

/-- A package out of strict mode. -/
def laxPkg : Pkg :=
  { StrictMode := false, findAttr := firstAttr,
    ERROR_NOT_YET_IMPLEMENTED := .lib "Not yet implemented" }

/-- The start element `<name xsi:type="tag">`. -/
def typedStart (name : String) (tag : String) : StartElement :=
  { Name := { Space := "", Local := name }, Attr := [{ Name := xsiType, Value := tag }] }

/-- A decoder whose input is the end tag of `name` followed by the end of the input. -/
def closedBy (name : String) : Decoder :=
  { toks := [.endElement { Space := "", Local := name }], fin := .eof }

/-- The start element `<name>`, without attributes. -/
def bareStart (name : String) : StartElement :=
  { Name := { Space := "", Local := name }, Attr := [] }

/-- A decoder whose input has ended with `fin`. -/
def endedWith (fin : Error) : Decoder :=
  { toks := [], fin := fin }

/-- Whether a feed item is a `SitelinkFeedItem` value: the items the specification of
`GetSitelinks` selects. -/
def ExtensionFeedItem.isSitelink : ExtensionFeedItem → Bool
  | .sitelink _ => true
  | .other _ _ => false

/-- A feed item of another dynamic type. -/
def calloutItem : ExtensionFeedItem :=
  .other "CalloutFeedItem" [("calloutText", "free delivery")]

/-- A sitelink whose text is `text`. -/
def sitelinkItem (text : String) : SitelinkFeedItem :=
  { Type_ := "SitelinkFeedItem", Fields := [("sitelinkText", text)] }

/-- An extension setting that lists a sitelink, a callout and a second sitelink. -/
def mixedSetting : CampaignExtensionSetting :=
  { CampaignID := 7, ExtensionType := "SITELINK",
    ExtensionSetting := some
      { Extensions := [.sitelink (sitelinkItem "a"), calloutItem, .sitelink (sitelinkItem "b")],
        PlateformRestrictions := "NONE" } }

/-- An extension setting whose `ExtensionSetting` is nil. -/
def emptySetting : CampaignExtensionSetting :=
  { CampaignID := 7, ExtensionType := "SITELINK", ExtensionSetting := none }

/-- The content `<biddingStrategyType>MANUAL_CPC</biddingStrategyType>` of a configuration
element, followed by the end of the input. -/
def strategyTypeOnly : Decoder :=
  { toks := [.startElement (bareStart "biddingStrategyType"), .charData "MANUAL_CPC",
      .endElement { Space := "", Local := "biddingStrategyType" }],
    fin := .eof }

/-- The content `<biddingScheme xsi:type="tag"></biddingScheme>` of a configuration element,
after a line break, followed by the end of the input. -/
def schemeOnly (tag : String) : Decoder :=
  { toks := [.charData "\n", .startElement (typedStart "biddingScheme" tag),
      .endElement { Space := "", Local := "biddingScheme" }],
    fin := .eof }

/-- The request `CampaignService.Mutate` hands to the transport. -/
def CampaignService.mutateRequest (urls : Urls) (ops : CampaignOperations) : Request :=
  { url := urls.campaignServiceUrl, action := "mutate",
    body := .campaigns
      { XMLName := { Space := urls.baseUrl, Local := "mutate" },
        Ops := CampaignService.mutateOperations ops } }

/-- The request `CampaignService.MutateLabel` hands to the transport. -/
def CampaignService.mutateLabelRequest (urls : Urls) (ops : CampaignLabelOperations) :
    Request :=
  { url := urls.campaignServiceUrl, action := "mutateLabel",
    body := .campaignLabels
      { XMLName := { Space := urls.baseUrl, Local := "mutateLabel" },
        Ops := CampaignService.mutateLabelOperations ops } }

/-- The request `CampaignExtensionSettingService.Mutate` hands to the transport. -/
def CampaignExtensionSettingService.mutateRequest (urls : Urls)
    (ops : CampaignExtensionSettingOperations) : Request :=
  { url := urls.campaignExtensionSettingServiceUrl, action := "mutate",
    body := .extensionSettings
      { XMLName := { Space := urls.baseUrl, Local := "mutate" },
        Ops := CampaignExtensionSettingService.mutateOperations ops } }

/-- What a mutate method owes its caller, given the transport's answer `resp`, the outcome
`decoded` of unmarshalling the response body, and the method's `result`: a transport error or
a decode error is returned with an empty list; otherwise the decoded list is returned, with the
response's `PartialFailureErrors` as the error when there are some and with nil when there
are none. -/
def SurfacesFailures {α : Type} (resp : String × Option Error)
    (decoded : MutateResp α × Option Error) (result : List α × Option Error) : Prop :=
  (∀ err, resp.2 = some err → result = ([], some err)) ∧
  (resp.2 = none → ∀ err, decoded.2 = some err → result = ([], some err)) ∧
  (resp.2 = none → decoded.2 = none → decoded.1.PartialFailureErrors ≠ [] →
    result = (decoded.1.Values, some (.failures decoded.1.PartialFailureErrors))) ∧
  (resp.2 = none → decoded.2 = none → decoded.1.PartialFailureErrors = [] →
    result = (decoded.1.Values, none))

/-- A campaign as `Get` may return it, with a trial type and a serving optimization status. -/
def fetchedCampaign : Campaign :=
  { Id := 11, Name := "spring", Status := "PAUSED", ServingStatus := some "SERVING",
    StartDate := "20180601", EndDate := none, BudgetId := 321543214,
    ConversionOptimizerEligibility := none,
    AdServingOptimizationStatus := "ROTATE_INDEFINITELY", FrequencyCap := none,
    Settings := [], AdvertisingChannelType := "SEARCH", AdvertisingChannelSubType := none,
    NetworkSetting := none, Labels := [],
    BiddingStrategyConfiguration := some { StrategyType := "MANUAL_CPC" },
    ForwardCompatibilityMap := none, TrackingUrlTemplate := none,
    UrlCustomParameters := none, BaseCampaignID := some 11,
    CampaignTrialType := some "BASE", Errors := [] }

/-- Addresses for the sample services. -/
def sampleUrls : Urls :=
  { baseUrl := "https://adwords.google.com/api/adwords/cm/v201806",
    campaignServiceUrl := "CampaignService",
    campaignExtensionSettingServiceUrl := "CampaignExtensionSettingService" }

/-- An unmarshal that fails on an empty body, reports one failure on the body "failure", and
otherwise decodes an empty response. -/
def sampleUnmarshal : Unmarshal :=
  { campaigns := fun body resp =>
      if body = "" then (resp, some (.lib "EOF"))
      else if body = "failure" then
        ({ resp with PartialFailureErrors := [{ text := "DUPLICATE_CAMPAIGN_NAME" }],
                     Values := [fetchedCampaign] }, none)
      else (resp, none),
    campaignLabels := fun body resp =>
      if body = "" then (resp, some (.lib "EOF")) else (resp, none),
    extensionSettings := fun body resp =>
      if body = "" then (resp, some (.lib "EOF")) else (resp, none) }

/-- A service whose remote end answers every request with `body` and `err`. -/
def answering (body : String) (err : Option Error) : CampaignService :=
  { Auth := { answer := fun _ => (body, err), sent := [] } }

/-! ## Theorems -/

/-- An attribute field keeps its value when every attribute that is stored into it carries
that value. -/
theorem assignTypeAttr_of_agree (attrs : List Attr) (ty : String)
    (h : ∀ a ∈ attrs, a.Name = xsiType → a.Value = ty) : assignTypeAttr attrs ty = ty := by
  unfold assignTypeAttr
  induction attrs with
  | nil => rfl
  | cons a rest ih =>
    rw [List.foldl_cons]
    have hrest : ∀ x ∈ rest, x.Name = xsiType → x.Value = ty :=
      fun x hx => h x (List.mem_cons_of_mem _ hx)
    by_cases hn : a.Name = xsiType
    · rw [if_pos hn, h a (List.mem_cons_self _ _) hn]
      exact ih hrest
    · rw [if_neg hn]
      exact ih hrest

/-- C1: `biddingSchemeUnmarshalXML` selects the variant by the type tag.  When `findAttr`
reads the tag "ManualCpcBiddingScheme" off a start element whose `xsi:type` attribute carries
that value, and the element decodes without error, the result is a non-nil `BiddingScheme`
whose `GetType()` is "ManualCpcBiddingScheme", returned with a nil error; likewise for
"TargetRoasBiddingScheme" and `TargetRoasBiddingScheme`. -/
theorem biddingSchemeUnmarshalXML_selects_variant (pkg : Pkg) (lib : XmlLib) (dec : Decoder)
    (start : StartElement) :
    (pkg.findAttr start.Attr xsiType = .ok "ManualCpcBiddingScheme" →
      (∀ a ∈ start.Attr, a.Name = xsiType → a.Value = "ManualCpcBiddingScheme") →
      (dec.DecodeBiddingScheme lib
        { Type_ := "ManualCpcBiddingScheme", EnhancedCpcEnabled := false } start).2.1 = none →
      ∃ c : BiddingScheme,
        (biddingSchemeUnmarshalXML pkg lib dec start).1 = some (.manualCpc c) ∧
        (BiddingSchemeInterface.manualCpc c).GetType = "ManualCpcBiddingScheme" ∧
        (biddingSchemeUnmarshalXML pkg lib dec start).2.1 = none) ∧
    (pkg.findAttr start.Attr xsiType = .ok "TargetRoasBiddingScheme" →
      (∀ a ∈ start.Attr, a.Name = xsiType → a.Value = "TargetRoasBiddingScheme") →
      (dec.DecodeTargetRoas lib
        { Type_ := "TargetRoasBiddingScheme", TargetRoas := ⟨0⟩, BidCeiling := none,
          BidFloor := none } start).2.1 = none →
      ∃ c : TargetRoasBiddingScheme,
        (biddingSchemeUnmarshalXML pkg lib dec start).1 = some (.targetRoas c) ∧
        (BiddingSchemeInterface.targetRoas c).GetType = "TargetRoasBiddingScheme" ∧
        (biddingSchemeUnmarshalXML pkg lib dec start).2.1 = none) := by
  constructor
  · intro htag hattr hdec
    refine ⟨(dec.DecodeBiddingScheme lib
      { Type_ := "ManualCpcBiddingScheme", EnhancedCpcEnabled := false } start).1, ?_, ?_, ?_⟩
    · simp [biddingSchemeUnmarshalXML, htag]
    · simp [BiddingSchemeInterface.GetType, BiddingScheme.GetType, Decoder.DecodeBiddingScheme,
        assignTypeAttr_of_agree _ _ hattr]
    · simpa [biddingSchemeUnmarshalXML, htag] using hdec
  · intro htag hattr hdec
    refine ⟨(dec.DecodeTargetRoas lib
      { Type_ := "TargetRoasBiddingScheme", TargetRoas := ⟨0⟩, BidCeiling := none,
        BidFloor := none } start).1, ?_, ?_, ?_⟩
    · simp [biddingSchemeUnmarshalXML, htag]
    · simp [BiddingSchemeInterface.GetType, TargetRoasBiddingScheme.GetType,
        Decoder.DecodeTargetRoas, assignTypeAttr_of_agree _ _ hattr]
    · simpa [biddingSchemeUnmarshalXML, htag] using hdec

/-- C1 evaluated on `<biddingScheme xsi:type="ManualCpcBiddingScheme">` and on
`<biddingScheme xsi:type="TargetRoasBiddingScheme">`. -/
theorem biddingSchemeUnmarshalXML_selects_variant_witness :
    (∃ c : BiddingScheme,
      (biddingSchemeUnmarshalXML strictPkg skipLib (closedBy "biddingScheme")
        (typedStart "biddingScheme" "ManualCpcBiddingScheme")).1 = some (.manualCpc c) ∧
      (BiddingSchemeInterface.manualCpc c).GetType = "ManualCpcBiddingScheme" ∧
      (biddingSchemeUnmarshalXML strictPkg skipLib (closedBy "biddingScheme")
        (typedStart "biddingScheme" "ManualCpcBiddingScheme")).2.1 = none) ∧
    (∃ c : TargetRoasBiddingScheme,
      (biddingSchemeUnmarshalXML laxPkg skipLib (closedBy "biddingScheme")
        (typedStart "biddingScheme" "TargetRoasBiddingScheme")).1 = some (.targetRoas c) ∧
      (BiddingSchemeInterface.targetRoas c).GetType = "TargetRoasBiddingScheme" ∧
      (biddingSchemeUnmarshalXML laxPkg skipLib (closedBy "biddingScheme")
        (typedStart "biddingScheme" "TargetRoasBiddingScheme")).2.1 = none) :=
  ⟨(biddingSchemeUnmarshalXML_selects_variant strictPkg skipLib (closedBy "biddingScheme")
      (typedStart "biddingScheme" "ManualCpcBiddingScheme")).1 (by rfl) (by decide) (by rfl),
   (biddingSchemeUnmarshalXML_selects_variant laxPkg skipLib (closedBy "biddingScheme")
      (typedStart "biddingScheme" "TargetRoasBiddingScheme")).2 (by rfl) (by decide) (by rfl)⟩

/-- C2: when `findAttr` reads off the start element a type tag other than
"ManualCpcBiddingScheme" and "TargetRoasBiddingScheme", `biddingSchemeUnmarshalXML` returns a
nil scheme with a non-nil error when `StrictMode` is true, and a nil scheme with a nil error
when `StrictMode` is false. -/
theorem biddingSchemeUnmarshalXML_unknown_tag (pkg : Pkg) (lib : XmlLib) (dec : Decoder)
    (start : StartElement) (tag : String)
    (htag : pkg.findAttr start.Attr xsiType = .ok tag)
    (hm : tag ≠ "ManualCpcBiddingScheme") (ht : tag ≠ "TargetRoasBiddingScheme") :
    (pkg.StrictMode = true →
      (biddingSchemeUnmarshalXML pkg lib dec start).1 = none ∧
      (biddingSchemeUnmarshalXML pkg lib dec start).2.1 ≠ none) ∧
    (pkg.StrictMode = false →
      (biddingSchemeUnmarshalXML pkg lib dec start).1 = none ∧
      (biddingSchemeUnmarshalXML pkg lib dec start).2.1 = none) := by
  constructor
  · intro hs
    simp [biddingSchemeUnmarshalXML, htag, hm, ht, hs]
  · intro hs
    simp [biddingSchemeUnmarshalXML, htag, hm, ht, hs]

/-- C2 evaluated on `<biddingScheme xsi:type="PageOnePromotedBiddingScheme">`, in strict mode
and out of it. -/
theorem biddingSchemeUnmarshalXML_unknown_tag_witness :
    ((biddingSchemeUnmarshalXML strictPkg skipLib (closedBy "biddingScheme")
        (typedStart "biddingScheme" "PageOnePromotedBiddingScheme")).1 = none ∧
      (biddingSchemeUnmarshalXML strictPkg skipLib (closedBy "biddingScheme")
        (typedStart "biddingScheme" "PageOnePromotedBiddingScheme")).2.1 ≠ none) ∧
    ((biddingSchemeUnmarshalXML laxPkg skipLib (closedBy "biddingScheme")
        (typedStart "biddingScheme" "PageOnePromotedBiddingScheme")).1 = none ∧
      (biddingSchemeUnmarshalXML laxPkg skipLib (closedBy "biddingScheme")
        (typedStart "biddingScheme" "PageOnePromotedBiddingScheme")).2.1 = none) :=
  ⟨(biddingSchemeUnmarshalXML_unknown_tag strictPkg skipLib (closedBy "biddingScheme")
      (typedStart "biddingScheme" "PageOnePromotedBiddingScheme")
      "PageOnePromotedBiddingScheme" (by rfl) (by decide) (by decide)).1 (by rfl),
   (biddingSchemeUnmarshalXML_unknown_tag laxPkg skipLib (closedBy "biddingScheme")
      (typedStart "biddingScheme" "PageOnePromotedBiddingScheme")
      "PageOnePromotedBiddingScheme" (by rfl) (by decide) (by decide)).2 (by rfl)⟩

/-- C3: when `findAttr` reads the tag "SitelinkFeedItem" and the element decodes without
error, `ExtensionFeedItems.UnmarshalXML` returns nil and leaves the previous list followed by
exactly one new `SitelinkFeedItem`, the decoded item with its `Type` field set to
"SitelinkFeedItem". -/
theorem ExtensionFeedItems_UnmarshalXML_appends_sitelink (pkg : Pkg) (lib : XmlLib)
    (ex : ExtensionFeedItems) (dec : Decoder) (start : StartElement)
    (htag : pkg.findAttr start.Attr xsiType = .ok "SitelinkFeedItem")
    (hdec : (dec.DecodeElement lib.sitelink ({} : SitelinkFeedItem) start).2.1 = none) :
    (ExtensionFeedItems.UnmarshalXML pkg lib ex dec start).2.1 = none ∧
    ∃ item : SitelinkFeedItem,
      item.Type_ = "SitelinkFeedItem" ∧
      item.Fields = (dec.DecodeElement lib.sitelink ({} : SitelinkFeedItem) start).1.Fields ∧
      (ExtensionFeedItems.UnmarshalXML pkg lib ex dec start).1 = ex ++ [.sitelink item] := by
  refine ⟨?_, { (dec.DecodeElement lib.sitelink ({} : SitelinkFeedItem) start).1 with
    Type_ := "SitelinkFeedItem" }, rfl, rfl, ?_⟩
  · simp [ExtensionFeedItems.UnmarshalXML, htag, hdec]
  · simp [ExtensionFeedItems.UnmarshalXML, htag, hdec]

/-- C3 evaluated on a list holding one callout and `<extensions xsi:type="SitelinkFeedItem">`. -/
theorem ExtensionFeedItems_UnmarshalXML_appends_sitelink_witness :
    (ExtensionFeedItems.UnmarshalXML strictPkg skipLib [calloutItem] (closedBy "extensions")
      (typedStart "extensions" "SitelinkFeedItem")).2.1 = none ∧
    ∃ item : SitelinkFeedItem,
      item.Type_ = "SitelinkFeedItem" ∧
      item.Fields = ((closedBy "extensions").DecodeElement skipLib.sitelink
        ({} : SitelinkFeedItem) (typedStart "extensions" "SitelinkFeedItem")).1.Fields ∧
      (ExtensionFeedItems.UnmarshalXML strictPkg skipLib [calloutItem] (closedBy "extensions")
        (typedStart "extensions" "SitelinkFeedItem")).1 = [calloutItem] ++ [.sitelink item] :=
  ExtensionFeedItems_UnmarshalXML_appends_sitelink strictPkg skipLib [calloutItem]
    (closedBy "extensions") (typedStart "extensions" "SitelinkFeedItem") (by rfl) (by rfl)

/-- C4: `ExtensionFeedItems.UnmarshalXML` leaves the list as it was whenever it does not
append.  On a type tag other than "SitelinkFeedItem" it returns a non-nil error when
`StrictMode` is true and nil when it is false; when `findAttr` finds no type tag it returns
the error of `findAttr`; when the body of a "SitelinkFeedItem" element fails to decode it
returns the error of the decode. -/
theorem ExtensionFeedItems_UnmarshalXML_leaves_list (pkg : Pkg) (lib : XmlLib)
    (ex : ExtensionFeedItems) (dec : Decoder) (start : StartElement) :
    (∀ tag : String, pkg.findAttr start.Attr xsiType = .ok tag → tag ≠ "SitelinkFeedItem" →
      (pkg.StrictMode = true →
        (ExtensionFeedItems.UnmarshalXML pkg lib ex dec start).2.1 ≠ none ∧
        (ExtensionFeedItems.UnmarshalXML pkg lib ex dec start).1 = ex) ∧
      (pkg.StrictMode = false →
        (ExtensionFeedItems.UnmarshalXML pkg lib ex dec start).2.1 = none ∧
        (ExtensionFeedItems.UnmarshalXML pkg lib ex dec start).1 = ex)) ∧
    (∀ err : Error, pkg.findAttr start.Attr xsiType = .error err →
      (ExtensionFeedItems.UnmarshalXML pkg lib ex dec start).2.1 = some err ∧
      (ExtensionFeedItems.UnmarshalXML pkg lib ex dec start).1 = ex) ∧
    (∀ err : Error, pkg.findAttr start.Attr xsiType = .ok "SitelinkFeedItem" →
      (dec.DecodeElement lib.sitelink ({} : SitelinkFeedItem) start).2.1 = some err →
      (ExtensionFeedItems.UnmarshalXML pkg lib ex dec start).2.1 = some err ∧
      (ExtensionFeedItems.UnmarshalXML pkg lib ex dec start).1 = ex) := by
  refine ⟨?_, ?_, ?_⟩
  · intro tag htag hne
    constructor
    · intro hs
      simp [ExtensionFeedItems.UnmarshalXML, htag, hne, hs]
    · intro hs
      simp [ExtensionFeedItems.UnmarshalXML, htag, hne, hs]
  · intro err herr
    simp [ExtensionFeedItems.UnmarshalXML, herr]
  · intro err htag hdec
    simp [ExtensionFeedItems.UnmarshalXML, htag, hdec]

/-- C4 evaluated on a list holding one callout: on `<extensions xsi:type="CalloutFeedItem">`
in strict mode and out of it, on `<extensions>` without a type tag, and on a
"SitelinkFeedItem" element whose input ends before its end tag. -/
theorem ExtensionFeedItems_UnmarshalXML_leaves_list_witness :
    ((ExtensionFeedItems.UnmarshalXML strictPkg skipLib [calloutItem] (closedBy "extensions")
        (typedStart "extensions" "CalloutFeedItem")).2.1 ≠ none ∧
      (ExtensionFeedItems.UnmarshalXML strictPkg skipLib [calloutItem] (closedBy "extensions")
        (typedStart "extensions" "CalloutFeedItem")).1 = [calloutItem]) ∧
    ((ExtensionFeedItems.UnmarshalXML laxPkg skipLib [calloutItem] (closedBy "extensions")
        (typedStart "extensions" "CalloutFeedItem")).2.1 = none ∧
      (ExtensionFeedItems.UnmarshalXML laxPkg skipLib [calloutItem] (closedBy "extensions")
        (typedStart "extensions" "CalloutFeedItem")).1 = [calloutItem]) ∧
    ((ExtensionFeedItems.UnmarshalXML strictPkg skipLib [calloutItem] (closedBy "extensions")
        (bareStart "extensions")).2.1 = some (.lib "attribute not found") ∧
      (ExtensionFeedItems.UnmarshalXML strictPkg skipLib [calloutItem] (closedBy "extensions")
        (bareStart "extensions")).1 = [calloutItem]) ∧
    ((ExtensionFeedItems.UnmarshalXML strictPkg skipLib [calloutItem] (endedWith .eof)
        (typedStart "extensions" "SitelinkFeedItem")).2.1 = some (.lib "unexpected EOF") ∧
      (ExtensionFeedItems.UnmarshalXML strictPkg skipLib [calloutItem] (endedWith .eof)
        (typedStart "extensions" "SitelinkFeedItem")).1 = [calloutItem]) :=
  ⟨((ExtensionFeedItems_UnmarshalXML_leaves_list strictPkg skipLib [calloutItem]
      (closedBy "extensions") (typedStart "extensions" "CalloutFeedItem")).1
      "CalloutFeedItem" (by rfl) (by decide)).1 (by rfl),
   ((ExtensionFeedItems_UnmarshalXML_leaves_list laxPkg skipLib [calloutItem]
      (closedBy "extensions") (typedStart "extensions" "CalloutFeedItem")).1
      "CalloutFeedItem" (by rfl) (by decide)).2 (by rfl),
   (ExtensionFeedItems_UnmarshalXML_leaves_list strictPkg skipLib [calloutItem]
      (closedBy "extensions") (bareStart "extensions")).2.1
      (.lib "attribute not found") (by rfl),
   (ExtensionFeedItems_UnmarshalXML_leaves_list strictPkg skipLib [calloutItem]
      (endedWith .eof) (typedStart "extensions" "SitelinkFeedItem")).2.2
      (.lib "unexpected EOF") (by rfl) (by rfl)⟩

/-- The loop of `GetSitelinks`, started on any slice, appends the sitelinks of the list. -/
theorem GetSitelinks_foldl (items : List ExtensionFeedItem) (acc : List SitelinkFeedItem) :
    (items.foldl
      (fun sitelinks extension =>
        match extension with
        | .sitelink sitelink => sitelinks ++ [sitelink]
        | _ => sitelinks)
      acc).map ExtensionFeedItem.sitelink
      = acc.map ExtensionFeedItem.sitelink ++ items.filter ExtensionFeedItem.isSitelink := by
  induction items generalizing acc with
  | nil => simp
  | cons item rest ih =>
    cases item with
    | sitelink s => simp [ih, ExtensionFeedItem.isSitelink]
    | other t f => simp [ih, ExtensionFeedItem.isSitelink]

/-- C5: `GetSitelinks` leaves its receiver as it was, returns the empty list when
`ExtensionSetting` is nil, and otherwise returns exactly the items of
`ExtensionSetting.Extensions` that are `SitelinkFeedItem` values, in their order. -/
theorem GetSitelinks_is_sitelink_subsequence (c : CampaignExtensionSetting) :
    c.GetSitelinks.1 = c ∧
    (c.ExtensionSetting = none → c.GetSitelinks.2 = []) ∧
    (∀ setting : ExtensionSetting, c.ExtensionSetting = some setting →
      c.GetSitelinks.2.map ExtensionFeedItem.sitelink
        = setting.Extensions.filter ExtensionFeedItem.isSitelink) := by
  refine ⟨?_, ?_, ?_⟩
  · unfold CampaignExtensionSetting.GetSitelinks
    cases c.ExtensionSetting <;> rfl
  · intro h
    simp [CampaignExtensionSetting.GetSitelinks, h]
  · intro setting h
    simp only [CampaignExtensionSetting.GetSitelinks, h]
    simpa using GetSitelinks_foldl setting.Extensions []

/-- C5 evaluated on a setting listing a sitelink, a callout and a sitelink, and on a setting
whose `ExtensionSetting` is nil. -/
theorem GetSitelinks_is_sitelink_subsequence_witness :
    emptySetting.GetSitelinks.2 = [] ∧
    mixedSetting.GetSitelinks.2.map ExtensionFeedItem.sitelink
      = [ExtensionFeedItem.sitelink (sitelinkItem "a"), calloutItem,
          ExtensionFeedItem.sitelink (sitelinkItem "b")].filter ExtensionFeedItem.isSitelink :=
  ⟨(GetSitelinks_is_sitelink_subsequence emptySetting).2.1 (by rfl),
   (GetSitelinks_is_sitelink_subsequence mixedSetting).2.2 _ (by rfl)⟩

/-! ### The loop of `BiddingStrategyConfiguration.UnmarshalXML` -/

/-- A `DecodeElement` call leaves no more tokens than it found. -/
theorem DecodeElement_toks_length {α : Type} (dec : Decoder)
    (f : α → StartElement → List Token → Decoded α) (v : α) (start : StartElement) :
    (dec.DecodeElement f v start).2.2.toks.length ≤ dec.toks.length := by
  simp [Decoder.DecodeElement, Decoder.advance]

/-- The dispatch on a bidding scheme leaves no more tokens than it found. -/
theorem biddingSchemeUnmarshalXML_toks_length (pkg : Pkg) (lib : XmlLib) (dec : Decoder)
    (start : StartElement) :
    (biddingSchemeUnmarshalXML pkg lib dec start).2.2.toks.length ≤ dec.toks.length := by
  unfold biddingSchemeUnmarshalXML
  cases pkg.findAttr start.Attr xsiType with
  | error err => simp
  | ok tag =>
    simp only
    split_ifs
    · exact DecodeElement_toks_length dec lib.manualCpc _ start
    · exact DecodeElement_toks_length dec lib.targetRoas _ start
    · exact le_refl _
    · exact le_refl _

/-- One pass through the loop body leaves no more tokens than it found. -/
theorem body_toks_length (pkg : Pkg) (lib : XmlLib) (b : BiddingStrategyConfiguration)
    (dec : Decoder) (token : Token) :
    (BiddingStrategyConfiguration.body pkg lib b dec token).2.2.toks.length
      ≤ dec.toks.length := by
  unfold BiddingStrategyConfiguration.body
  cases token with
  | startElement start =>
    simp only
    split_ifs
    · exact DecodeElement_toks_length dec lib.int64 _ start
    · exact DecodeElement_toks_length dec lib.string _ start
    · exact DecodeElement_toks_length dec lib.string _ start
    · exact DecodeElement_toks_length dec lib.string _ start
    · have h := biddingSchemeUnmarshalXML_toks_length pkg lib dec start
      cases hr : (biddingSchemeUnmarshalXML pkg lib dec start).2.1 <;> simpa [hr] using h
    · exact DecodeElement_toks_length dec lib.bids _ start
    · exact le_refl _
  | endElement _ => exact le_refl _
  | charData _ => exact le_refl _
  | comment _ => exact le_refl _
  | procInst _ _ => exact le_refl _
  | directive _ => exact le_refl _

/-- The loop does not depend on its bound once the bound exceeds the number of tokens left:
every pass reads a token, so the bound supplied by `UnmarshalXML` is never used up. -/
theorem loop_bound_irrelevant (pkg : Pkg) (lib : XmlLib) (m n : Nat) :
    ∀ (b : BiddingStrategyConfiguration) (dec : Decoder),
      dec.toks.length < m → dec.toks.length < n →
      BiddingStrategyConfiguration.loop pkg lib m b dec
        = BiddingStrategyConfiguration.loop pkg lib n b dec := by
  induction m generalizing n with
  | zero => intro b dec hm; omega
  | succ m ih =>
    intro b dec hm hn
    cases n with
    | zero => omega
    | succ n =>
      obtain ⟨toks, fin⟩ := dec
      cases toks with
      | nil => simp [BiddingStrategyConfiguration.loop, Decoder.Token]
      | cons t rest =>
        simp only [BiddingStrategyConfiguration.loop, Decoder.Token]
        have hlen := body_toks_length pkg lib b { toks := rest, fin := fin } t
        cases hr : (BiddingStrategyConfiguration.body pkg lib b
            { toks := rest, fin := fin } t).2.1 with
        | some err => rfl
        | none =>
          simp only
          apply ih
          · simp only [List.length_cons] at hm hlen ⊢; omega
          · simp only [List.length_cons] at hn hlen ⊢; omega

/-- `UnmarshalXML` on an exhausted input: `dec.Token()` reports the terminal error, the loop
is left, and nil is returned. -/
theorem UnmarshalXML_nil (pkg : Pkg) (lib : XmlLib) (b : BiddingStrategyConfiguration)
    (fin : Error) (start : StartElement) :
    BiddingStrategyConfiguration.UnmarshalXML pkg lib b { toks := [], fin := fin } start
      = (b, none, { toks := [], fin := fin }) := by
  simp [BiddingStrategyConfiguration.UnmarshalXML, BiddingStrategyConfiguration.loop,
    Decoder.Token]

/-- `UnmarshalXML` on an input with a next token: one pass through the body, then either the
error of the body is returned or the loop goes on from where the body stopped. -/
theorem UnmarshalXML_cons (pkg : Pkg) (lib : XmlLib) (b : BiddingStrategyConfiguration)
    (t : Token) (rest : List Token) (fin : Error) (start : StartElement) :
    BiddingStrategyConfiguration.UnmarshalXML pkg lib b { toks := t :: rest, fin := fin } start
      = match (BiddingStrategyConfiguration.body pkg lib b
            { toks := rest, fin := fin } t).2.1 with
        | some err =>
          ((BiddingStrategyConfiguration.body pkg lib b { toks := rest, fin := fin } t).1,
            some err,
            (BiddingStrategyConfiguration.body pkg lib b { toks := rest, fin := fin } t).2.2)
        | none =>
          BiddingStrategyConfiguration.UnmarshalXML pkg lib
            (BiddingStrategyConfiguration.body pkg lib b { toks := rest, fin := fin } t).1
            (BiddingStrategyConfiguration.body pkg lib b { toks := rest, fin := fin } t).2.2
            start := by
  have hlen := body_toks_length pkg lib b { toks := rest, fin := fin } t
  have hstep : BiddingStrategyConfiguration.UnmarshalXML pkg lib b
      { toks := t :: rest, fin := fin } start
      = match (BiddingStrategyConfiguration.body pkg lib b
            { toks := rest, fin := fin } t).2.1 with
        | some err =>
          ((BiddingStrategyConfiguration.body pkg lib b { toks := rest, fin := fin } t).1,
            some err,
            (BiddingStrategyConfiguration.body pkg lib b { toks := rest, fin := fin } t).2.2)
        | none =>
          BiddingStrategyConfiguration.loop pkg lib (rest.length + 1)
            (BiddingStrategyConfiguration.body pkg lib b { toks := rest, fin := fin } t).1
            (BiddingStrategyConfiguration.body pkg lib b { toks := rest, fin := fin } t).2.2 :=
    rfl
  rw [hstep]
  cases hr : (BiddingStrategyConfiguration.body pkg lib b
      { toks := rest, fin := fin } t).2.1 with
  | some err => rfl
  | none =>
    simp only [BiddingStrategyConfiguration.UnmarshalXML]
    apply loop_bound_irrelevant
    · simp only at hlen; omega
    · omega

/-- One pass through the loop body leaves a tail of the tokens it found. -/
theorem body_toks_drop (pkg : Pkg) (lib : XmlLib) (b : BiddingStrategyConfiguration)
    (dec : Decoder) (token : Token) :
    ∃ n, (BiddingStrategyConfiguration.body pkg lib b dec token).2.2.toks
      = dec.toks.drop n := by
  unfold BiddingStrategyConfiguration.body
  cases token with
  | startElement start =>
    simp only
    split_ifs
    · exact ⟨_, rfl⟩
    · exact ⟨_, rfl⟩
    · exact ⟨_, rfl⟩
    · exact ⟨_, rfl⟩
    · have h : ∃ n, (biddingSchemeUnmarshalXML pkg lib dec start).2.2.toks
          = dec.toks.drop n := by
        unfold biddingSchemeUnmarshalXML
        cases pkg.findAttr start.Attr xsiType with
        | error err => exact ⟨0, rfl⟩
        | ok tag =>
          simp only
          split_ifs
          · exact ⟨_, rfl⟩
          · exact ⟨_, rfl⟩
          · exact ⟨0, rfl⟩
          · exact ⟨0, rfl⟩
      cases hr : (biddingSchemeUnmarshalXML pkg lib dec start).2.1 <;> simpa [hr] using h
    · exact ⟨_, rfl⟩
    · exact ⟨0, rfl⟩
  | endElement _ => exact ⟨0, rfl⟩
  | charData _ => exact ⟨0, rfl⟩
  | comment _ => exact ⟨0, rfl⟩
  | procInst _ _ => exact ⟨0, rfl⟩
  | directive _ => exact ⟨0, rfl⟩

/-- A pass on a token that is not the start of a `biddingScheme` element leaves `Scheme` as
it was. -/
theorem body_scheme_unchanged (pkg : Pkg) (lib : XmlLib) (b : BiddingStrategyConfiguration)
    (dec : Decoder) (token : Token)
    (h : ∀ s, token = .startElement s → s.Name.Local ≠ "biddingScheme") :
    (BiddingStrategyConfiguration.body pkg lib b dec token).1.Scheme = b.Scheme := by
  unfold BiddingStrategyConfiguration.body
  cases token with
  | startElement start =>
    have hne := h start rfl
    simp only
    split_ifs <;> rfl
  | endElement _ => rfl
  | charData _ => rfl
  | comment _ => rfl
  | procInst _ _ => rfl
  | directive _ => rfl

/-- On an input without the start of a `biddingScheme` element, `UnmarshalXML` leaves
`Scheme` as it was. -/
theorem UnmarshalXML_scheme_unchanged (pkg : Pkg) (lib : XmlLib) (start : StartElement)
    (n : Nat) :
    ∀ (dec : Decoder) (b : BiddingStrategyConfiguration), dec.toks.length ≤ n →
      (∀ s, Token.startElement s ∈ dec.toks → s.Name.Local ≠ "biddingScheme") →
      (BiddingStrategyConfiguration.UnmarshalXML pkg lib b dec start).1.Scheme = b.Scheme := by
  induction n with
  | zero =>
    intro dec b hlen _
    obtain ⟨toks, fin⟩ := dec
    have : toks = [] := List.length_eq_zero.mp (Nat.le_zero.mp hlen)
    subst this
    rw [UnmarshalXML_nil]
  | succ n ih =>
    intro dec b hlen hno
    obtain ⟨toks, fin⟩ := dec
    cases toks with
    | nil => rw [UnmarshalXML_nil]
    | cons t rest =>
      rw [UnmarshalXML_cons]
      have hb := body_scheme_unchanged pkg lib b { toks := rest, fin := fin } t
        (fun s hs => hno s (hs ▸ List.mem_cons_self _ _))
      obtain ⟨k, hk⟩ := body_toks_drop pkg lib b { toks := rest, fin := fin } t
      have hlen1 := body_toks_length pkg lib b { toks := rest, fin := fin } t
      cases hr : (BiddingStrategyConfiguration.body pkg lib b
          { toks := rest, fin := fin } t).2.1 with
      | some err => exact hb
      | none =>
        simp only
        rw [ih _ _ _ _, hb]
        · simp only [List.length_cons] at hlen hlen1; omega
        · intro s hs
          rw [hk] at hs
          exact hno s (List.mem_cons_of_mem _ (List.mem_of_mem_drop hs))

/-- In strict mode a bidding scheme dispatch that returns no error returns a scheme. -/
theorem biddingSchemeUnmarshalXML_strict_some (pkg : Pkg) (lib : XmlLib) (dec : Decoder)
    (start : StartElement) (hs : pkg.StrictMode = true)
    (hr : (biddingSchemeUnmarshalXML pkg lib dec start).2.1 = none) :
    (biddingSchemeUnmarshalXML pkg lib dec start).1 ≠ none := by
  unfold biddingSchemeUnmarshalXML at hr ⊢
  cases hf : pkg.findAttr start.Attr xsiType with
  | error err => simp [hf] at hr
  | ok tag =>
    simp only [hf] at hr ⊢
    split_ifs at hr ⊢ <;> simp at hr ⊢

/-- In strict mode a pass that returns no error leaves `Scheme` non-nil if it was. -/
theorem body_strict_scheme (pkg : Pkg) (lib : XmlLib) (b : BiddingStrategyConfiguration)
    (dec : Decoder) (token : Token) (hs : pkg.StrictMode = true)
    (hr : (BiddingStrategyConfiguration.body pkg lib b dec token).2.1 = none)
    (hb : b.Scheme ≠ none) :
    (BiddingStrategyConfiguration.body pkg lib b dec token).1.Scheme ≠ none := by
  unfold BiddingStrategyConfiguration.body at hr ⊢
  cases token with
  | startElement start =>
    simp only at hr ⊢
    split_ifs at hr ⊢
    · exact hb
    · exact hb
    · exact hb
    · exact hb
    · cases hd : (biddingSchemeUnmarshalXML pkg lib dec start).2.1 with
      | some err => simp [hd] at hr
      | none =>
        simp only [hd]
        exact biddingSchemeUnmarshalXML_strict_some pkg lib dec start hs hd
    · exact hb
    · exact hb
  | endElement _ => exact hb
  | charData _ => exact hb
  | comment _ => exact hb
  | procInst _ _ => exact hb
  | directive _ => exact hb

/-- In strict mode, when `UnmarshalXML` returns nil it leaves `Scheme` non-nil if it was. -/
theorem UnmarshalXML_strict_scheme (pkg : Pkg) (lib : XmlLib) (start : StartElement)
    (hs : pkg.StrictMode = true) (n : Nat) :
    ∀ (dec : Decoder) (b : BiddingStrategyConfiguration), dec.toks.length ≤ n →
      (BiddingStrategyConfiguration.UnmarshalXML pkg lib b dec start).2.1 = none →
      b.Scheme ≠ none →
      (BiddingStrategyConfiguration.UnmarshalXML pkg lib b dec start).1.Scheme ≠ none := by
  induction n with
  | zero =>
    intro dec b hlen _ hb
    obtain ⟨toks, fin⟩ := dec
    have : toks = [] := List.length_eq_zero.mp (Nat.le_zero.mp hlen)
    subst this
    rw [UnmarshalXML_nil]
    exact hb
  | succ n ih =>
    intro dec b hlen hret hb
    obtain ⟨toks, fin⟩ := dec
    cases toks with
    | nil => rw [UnmarshalXML_nil]; exact hb
    | cons t rest =>
      rw [UnmarshalXML_cons] at hret ⊢
      have hlen1 := body_toks_length pkg lib b { toks := rest, fin := fin } t
      cases hr : (BiddingStrategyConfiguration.body pkg lib b
          { toks := rest, fin := fin } t).2.1 with
      | some err => simp [hr] at hret
      | none =>
        simp only [hr] at hret ⊢
        apply ih _ _ _ hret (body_strict_scheme pkg lib b _ t hs hr hb)
        simp only [List.length_cons] at hlen hlen1; omega

/-- Tokens other than start elements at the head of the input are passed over. -/
theorem UnmarshalXML_skip (pkg : Pkg) (lib : XmlLib) (b : BiddingStrategyConfiguration)
    (start : StartElement) (fin : Error) (toks : List Token) :
    ∀ pre : List Token, (∀ t ∈ pre, ∀ s, t ≠ Token.startElement s) →
      BiddingStrategyConfiguration.UnmarshalXML pkg lib b
          { toks := pre ++ toks, fin := fin } start
        = BiddingStrategyConfiguration.UnmarshalXML pkg lib b
          { toks := toks, fin := fin } start := by
  intro pre
  induction pre with
  | nil => intro _; rfl
  | cons t pre ih =>
    intro hpre
    rw [List.cons_append, UnmarshalXML_cons]
    have hbody : BiddingStrategyConfiguration.body pkg lib b
        { toks := pre ++ toks, fin := fin } t = (b, none, { toks := pre ++ toks, fin := fin }) := by
      cases t with
      | startElement s => exact absurd rfl (hpre _ (List.mem_cons_self _ _) s)
      | endElement _ => rfl
      | charData _ => rfl
      | comment _ => rfl
      | procInst _ _ => rfl
      | directive _ => rfl
    rw [hbody]
    exact ih (fun x hx => hpre x (List.mem_cons_of_mem _ hx))

/-- C6: a failed read of the next token is not returned.  On an input whose reading fails at
once, with whatever error (a syntax error as much as the end of the input),
`BiddingStrategyConfiguration.UnmarshalXML` returns nil and leaves the configuration as it
was: the loop condition `err == nil` ends the loop and `return nil` follows. -/
theorem UnmarshalXML_drops_token_error (pkg : Pkg) (lib : XmlLib)
    (b : BiddingStrategyConfiguration) (fin : Error) (start : StartElement) :
    BiddingStrategyConfiguration.UnmarshalXML pkg lib b (endedWith fin) start
      = (b, none, endedWith fin) :=
  UnmarshalXML_nil pkg lib b fin start

/-- The error of a pass through the loop body is returned: a failed decode of a recognised
child element and a failed bidding scheme dispatch reach the caller. -/
theorem UnmarshalXML_returns_body_error (pkg : Pkg) (lib : XmlLib)
    (b : BiddingStrategyConfiguration) (t : Token) (rest : List Token) (fin : Error)
    (start : StartElement) (err : Error)
    (h : (BiddingStrategyConfiguration.body pkg lib b { toks := rest, fin := fin } t).2.1
      = some err) :
    (BiddingStrategyConfiguration.UnmarshalXML pkg lib b
      { toks := t :: rest, fin := fin } start).2.1 = some err := by
  rw [UnmarshalXML_cons, h]

/-- C7 fails as stated: on `<biddingStrategyType>MANUAL_CPC</biddingStrategyType>`, an input
without a `biddingScheme` child, `UnmarshalXML` started from the empty configuration returns
nil and leaves `Scheme` nil. -/
theorem UnmarshalXML_scheme_nil_counterexample :
    (BiddingStrategyConfiguration.UnmarshalXML strictPkg skipLib {} strategyTypeOnly
      (bareStart "biddingStrategyConfiguration")).2.1 = none ∧
    (BiddingStrategyConfiguration.UnmarshalXML strictPkg skipLib {} strategyTypeOnly
      (bareStart "biddingStrategyConfiguration")).1.Scheme = none ∧
    (BiddingStrategyConfiguration.UnmarshalXML strictPkg skipLib {} strategyTypeOnly
      (bareStart "biddingStrategyConfiguration")).1.StrategyType = "MANUAL_CPC" := by
  decide

/-- C7, amended: a configuration owns at most one bidding scheme.  Started from the empty
configuration, `UnmarshalXML` leaves `Scheme` nil on every input that holds no `biddingScheme`
start element; and when `StrictMode` is true, the first start element of the input is a
`biddingScheme` element and `UnmarshalXML` returns nil, `Scheme` is non-nil, one of the two
known variants. -/
theorem UnmarshalXML_scheme_nil_or_dispatched (pkg : Pkg) (lib : XmlLib) (dec : Decoder)
    (start : StartElement) :
    ((∀ s, Token.startElement s ∈ dec.toks → s.Name.Local ≠ "biddingScheme") →
      (BiddingStrategyConfiguration.UnmarshalXML pkg lib {} dec start).1.Scheme = none) ∧
    (pkg.StrictMode = true →
      ∀ (pre : List Token) (s : StartElement) (rest : List Token),
        dec.toks = pre ++ Token.startElement s :: rest →
        (∀ t ∈ pre, ∀ s1, t ≠ Token.startElement s1) →
        s.Name.Local = "biddingScheme" →
        (BiddingStrategyConfiguration.UnmarshalXML pkg lib {} dec start).2.1 = none →
        (∃ c : BiddingScheme,
          (BiddingStrategyConfiguration.UnmarshalXML pkg lib {} dec start).1.Scheme
            = some (.manualCpc c)) ∨
        (∃ c : TargetRoasBiddingScheme,
          (BiddingStrategyConfiguration.UnmarshalXML pkg lib {} dec start).1.Scheme
            = some (.targetRoas c))) := by
  constructor
  · intro hno
    exact UnmarshalXML_scheme_unchanged pkg lib start dec.toks.length dec {} (le_refl _) hno
  · intro hs pre s rest htoks hpre hname hret
    obtain ⟨toks, fin⟩ := dec
    simp only at htoks
    subst htoks
    have hsome : (BiddingStrategyConfiguration.UnmarshalXML pkg lib {}
        { toks := pre ++ Token.startElement s :: rest, fin := fin } start).1.Scheme ≠ none := by
      rw [UnmarshalXML_skip pkg lib {} start fin _ pre hpre] at hret ⊢
      rw [UnmarshalXML_cons] at hret ⊢
      have hbody : BiddingStrategyConfiguration.body pkg lib {} { toks := rest, fin := fin }
          (Token.startElement s)
          = match (biddingSchemeUnmarshalXML pkg lib { toks := rest, fin := fin } s).2.1 with
            | some err => ({}, some err,
                (biddingSchemeUnmarshalXML pkg lib { toks := rest, fin := fin } s).2.2)
            | none =>
              ({ Scheme := (biddingSchemeUnmarshalXML pkg lib
                    { toks := rest, fin := fin } s).1 }, none,
                (biddingSchemeUnmarshalXML pkg lib { toks := rest, fin := fin } s).2.2) := by
        simp [BiddingStrategyConfiguration.body, hname]
      rw [hbody] at hret ⊢
      cases hd : (biddingSchemeUnmarshalXML pkg lib { toks := rest, fin := fin } s).2.1 with
      | some err => simp [hd] at hret
      | none =>
        simp only [hd] at hret ⊢
        have hlen := biddingSchemeUnmarshalXML_toks_length pkg lib { toks := rest, fin := fin } s
        exact UnmarshalXML_strict_scheme pkg lib start hs _ _ _ (le_refl _) hret
          (biddingSchemeUnmarshalXML_strict_some pkg lib _ s hs hd)
    cases hv : (BiddingStrategyConfiguration.UnmarshalXML pkg lib {}
        { toks := pre ++ Token.startElement s :: rest, fin := fin } start).1.Scheme with
    | none => exact absurd hv hsome
    | some v =>
      cases v with
      | manualCpc c => exact Or.inl ⟨c, rfl⟩
      | targetRoas c => exact Or.inr ⟨c, rfl⟩

/-- C7, amended, evaluated on an input holding `biddingStrategyType` only, and in strict mode
on `<biddingScheme xsi:type="ManualCpcBiddingScheme">` after a line break. -/
theorem UnmarshalXML_scheme_nil_or_dispatched_witness :
    (BiddingStrategyConfiguration.UnmarshalXML laxPkg skipLib {} strategyTypeOnly
      (bareStart "biddingStrategyConfiguration")).1.Scheme = none ∧
    ((∃ c : BiddingScheme,
      (BiddingStrategyConfiguration.UnmarshalXML strictPkg skipLib {}
        (schemeOnly "ManualCpcBiddingScheme")
        (bareStart "biddingStrategyConfiguration")).1.Scheme = some (.manualCpc c)) ∨
    (∃ c : TargetRoasBiddingScheme,
      (BiddingStrategyConfiguration.UnmarshalXML strictPkg skipLib {}
        (schemeOnly "ManualCpcBiddingScheme")
        (bareStart "biddingStrategyConfiguration")).1.Scheme = some (.targetRoas c))) :=
  ⟨(UnmarshalXML_scheme_nil_or_dispatched laxPkg skipLib strategyTypeOnly
      (bareStart "biddingStrategyConfiguration")).1
      (by simp [strategyTypeOnly, bareStart]),
   (UnmarshalXML_scheme_nil_or_dispatched strictPkg skipLib
      (schemeOnly "ManualCpcBiddingScheme") (bareStart "biddingStrategyConfiguration")).2
      (by rfl) [.charData "\n"] (typedStart "biddingScheme" "ManualCpcBiddingScheme")
      [.endElement { Space := "", Local := "biddingScheme" }]
      (by rfl) (by simp) (by rfl) (by decide)⟩

/-! ### The mutate methods -/

/-- The shared tail of the mutate methods surfaces failures. -/
theorem mutateReturn_surfaces {α : Type} (resp : String × Option Error)
    (unmarshal : String → MutateResp α → MutateResp α × Option Error) :
    SurfacesFailures resp (unmarshal resp.1 {}) (mutateReturn resp unmarshal) := by
  refine ⟨?_, ?_, ?_, ?_⟩
  · intro err h
    simp [mutateReturn, h]
  · intro h err hd
    simp [mutateReturn, h, hd]
  · intro h hd hp
    have hlen : 0 < (unmarshal resp.1 {}).1.PartialFailureErrors.length :=
      List.length_pos.mpr hp
    simp [mutateReturn, h, hd, hlen]
  · intro h hd hp
    simp [mutateReturn, h, hd, hp]

/-- C8: partial failures are returned to the caller.  `CampaignService.Mutate`,
`CampaignService.MutateLabel` and `CampaignExtensionSettingService.Mutate` each return, for
the answer of the transport to the request they send: that error and an empty list when the
transport fails; the decode error and an empty list when the decode fails; otherwise the
decoded list, with the response's `PartialFailureErrors` as the error when that list of
failures is non-empty and a nil error when it is empty. -/
theorem Mutate_surfaces_failures (urls : Urls) (um : Unmarshal) :
    (∀ (s : CampaignService) (ops : CampaignOperations),
      SurfacesFailures
        (s.Auth.answer (CampaignService.mutateRequest urls ops))
        (um.campaigns (s.Auth.answer (CampaignService.mutateRequest urls ops)).1 {})
        (CampaignService.Mutate urls um s ops).1) ∧
    (∀ (s : CampaignService) (ops : CampaignLabelOperations),
      SurfacesFailures
        (s.Auth.answer (CampaignService.mutateLabelRequest urls ops))
        (um.campaignLabels (s.Auth.answer (CampaignService.mutateLabelRequest urls ops)).1 {})
        (CampaignService.MutateLabel urls um s ops).1) ∧
    (∀ (s : CampaignExtensionSettingService) (ops : CampaignExtensionSettingOperations),
      SurfacesFailures
        (s.Auth.answer (CampaignExtensionSettingService.mutateRequest urls ops))
        (um.extensionSettings
          (s.Auth.answer (CampaignExtensionSettingService.mutateRequest urls ops)).1 {})
        (CampaignExtensionSettingService.Mutate urls um s ops).1) :=
  ⟨fun _ _ => mutateReturn_surfaces _ _, fun _ _ => mutateReturn_surfaces _ _,
    fun _ _ => mutateReturn_surfaces _ _⟩

/-- C8 evaluated on `CampaignService.Mutate`: a transport that fails, a body that does not
decode, a response with one failure, a response without failures. -/
theorem Mutate_surfaces_failures_witness :
    (CampaignService.Mutate sampleUrls sampleUnmarshal
      (answering "" (some (.lib "connection refused"))) [("SET", [fetchedCampaign])]).1
      = ([], some (.lib "connection refused")) ∧
    (CampaignService.Mutate sampleUrls sampleUnmarshal
      (answering "" none) [("SET", [fetchedCampaign])]).1 = ([], some (.lib "EOF")) ∧
    (CampaignService.Mutate sampleUrls sampleUnmarshal
      (answering "failure" none) [("SET", [fetchedCampaign])]).1
      = ([fetchedCampaign], some (.failures [{ text := "DUPLICATE_CAMPAIGN_NAME" }])) ∧
    (CampaignService.Mutate sampleUrls sampleUnmarshal
      (answering "ok" none) [("SET", [fetchedCampaign])]).1 = ([], none) :=
  ⟨((Mutate_surfaces_failures sampleUrls sampleUnmarshal).1
      (answering "" (some (.lib "connection refused"))) [("SET", [fetchedCampaign])]).1
      _ rfl,
   ((Mutate_surfaces_failures sampleUrls sampleUnmarshal).1
      (answering "" none) [("SET", [fetchedCampaign])]).2.1 rfl _ rfl,
   ((Mutate_surfaces_failures sampleUrls sampleUnmarshal).1
      (answering "failure" none) [("SET", [fetchedCampaign])]).2.2.1 rfl rfl (by decide),
   ((Mutate_surfaces_failures sampleUrls sampleUnmarshal).1
      (answering "ok" none) [("SET", [fetchedCampaign])]).2.2.2 rfl rfl rfl⟩

/-- Every operation that the loops of `CampaignService.Mutate` add comes from a listed
campaign, cleared of its trial type and serving optimization status, under its map key. -/
theorem mutateOperations_foldl (entries : CampaignOperations) :
    ∀ (acc : List (Operation Campaign)) (op : Operation Campaign),
      op ∈ entries.foldl
        (fun operations entry =>
          entry.2.foldl
            (fun operations campaign =>
              let campaign := { campaign with CampaignTrialType := none }
              let campaign := { campaign with AdServingOptimizationStatus := "" }
              operations ++ [{ Action := entry.1, Operand := campaign }])
            operations)
        acc →
      op ∈ acc ∨ ∃ entry ∈ entries, ∃ campaign ∈ entry.2,
        op.Action = entry.1 ∧
        op.Operand = { campaign with CampaignTrialType := none,
                                     AdServingOptimizationStatus := "" } := by
  induction entries with
  | nil => intro acc op h; exact Or.inl h
  | cons entry rest ih =>
    intro acc op h
    rw [List.foldl_cons] at h
    have inner : ∀ (campaigns : List Campaign) (acc : List (Operation Campaign))
        (op : Operation Campaign),
        op ∈ campaigns.foldl
          (fun operations campaign =>
            let campaign := { campaign with CampaignTrialType := none }
            let campaign := { campaign with AdServingOptimizationStatus := "" }
            operations ++ [{ Action := entry.1, Operand := campaign }])
          acc →
        op ∈ acc ∨ ∃ campaign ∈ campaigns,
          op.Action = entry.1 ∧
          op.Operand = { campaign with CampaignTrialType := none,
                                       AdServingOptimizationStatus := "" } := by
      intro campaigns
      induction campaigns with
      | nil => intro acc op h; exact Or.inl h
      | cons c cs ihc =>
        intro acc op h
        rw [List.foldl_cons] at h
        rcases ihc _ op h with hacc | ⟨campaign, hmem, hop⟩
        · rcases List.mem_append.mp hacc with hacc | hnew
          · exact Or.inl hacc
          · rw [List.mem_singleton] at hnew
            exact Or.inr ⟨c, List.mem_cons_self _ _, by rw [hnew], by rw [hnew]⟩
        · exact Or.inr ⟨campaign, List.mem_cons_of_mem _ hmem, hop⟩
    rcases ih _ op h with hacc | ⟨e, he, campaign, hc, hop⟩
    · rcases inner entry.2 acc op hacc with hacc | ⟨campaign, hc, hop⟩
      · exact Or.inl hacc
      · exact Or.inr ⟨entry, List.mem_cons_self _ _, campaign, hc, hop⟩
    · exact Or.inr ⟨e, List.mem_cons_of_mem _ he, campaign, hc, hop⟩

/-- C9: `CampaignService.Mutate` never sends the two fields that cannot be mutated.  It hands
the transport exactly one request, and every operation of that request has as operator a key
of the map and as operand a campaign listed under that key, with `CampaignTrialType` set to
nil, `AdServingOptimizationStatus` set to the empty string and every other field as in the
input. -/
theorem Mutate_clears_unmutable_fields (urls : Urls) (um : Unmarshal) (s : CampaignService)
    (campaignOperations : CampaignOperations) :
    (CampaignService.Mutate urls um s campaignOperations).2.Auth.sent
      = s.Auth.sent ++ [CampaignService.mutateRequest urls campaignOperations] ∧
    (CampaignService.mutateRequest urls campaignOperations).body
      = .campaigns { XMLName := { Space := urls.baseUrl, Local := "mutate" },
                     Ops := CampaignService.mutateOperations campaignOperations } ∧
    ∀ op ∈ CampaignService.mutateOperations campaignOperations,
      op.Operand.CampaignTrialType = none ∧
      op.Operand.AdServingOptimizationStatus = "" ∧
      ∃ entry ∈ campaignOperations, ∃ campaign ∈ entry.2,
        op.Action = entry.1 ∧
        op.Operand = { campaign with CampaignTrialType := none,
                                     AdServingOptimizationStatus := "" } := by
  refine ⟨rfl, rfl, ?_⟩
  intro op hop
  rcases mutateOperations_foldl campaignOperations [] op hop with h | ⟨e, he, c, hc, ha, ho⟩
  · exact absurd h (List.not_mem_nil _)
  · exact ⟨by rw [ho], by rw [ho], e, he, c, hc, ha, ho⟩

/-- C9 evaluated on a map listing one fetched campaign under "SET". -/
theorem Mutate_clears_unmutable_fields_witness :
    (Operation.mk "SET" { fetchedCampaign with CampaignTrialType := none,
                                                AdServingOptimizationStatus := "" }
        ).Operand.CampaignTrialType = none ∧
    (Operation.mk "SET" { fetchedCampaign with CampaignTrialType := none,
                                                AdServingOptimizationStatus := "" }
        ).Operand.AdServingOptimizationStatus = "" ∧
    ∃ entry ∈ [("SET", [fetchedCampaign])], ∃ campaign ∈ entry.2,
      (Operation.mk "SET" { fetchedCampaign with CampaignTrialType := none,
                                                  AdServingOptimizationStatus := "" }
        ).Action = entry.1 ∧
      (Operation.mk "SET" { fetchedCampaign with CampaignTrialType := none,
                                                  AdServingOptimizationStatus := "" }
        ).Operand = { campaign with CampaignTrialType := none,
                                    AdServingOptimizationStatus := "" } :=
  (Mutate_clears_unmutable_fields sampleUrls sampleUnmarshal (answering "ok" none)
    [("SET", [fetchedCampaign])]).2.2 _ (by decide)

/-- C10: `CampaignService.Query` is not yet implemented.  For every query string it returns
`ERROR_NOT_YET_IMPLEMENTED` with an empty list of campaigns and a total count of 0, and the
transport is left with the requests it already had. -/
theorem Query_not_yet_implemented (pkg : Pkg) (s : CampaignService) (query : String) :
    (CampaignService.Query pkg s query).1 = ([], 0, some pkg.ERROR_NOT_YET_IMPLEMENTED) ∧
    (CampaignService.Query pkg s query).2.Auth.sent = s.Auth.sent :=
  ⟨rfl, rfl⟩

/-! ### Constructors and the decoder -/

/-- C11: the type tag round-trips between the constructors and the decoder.  For a scheme `s`
built by `NewBiddingScheme` or by `NewTargetRoasBiddingScheme`, on a start element off which
`findAttr` reads `s.GetType()`, `biddingSchemeUnmarshalXML` takes the branch of the variant of
`s` whatever `StrictMode` is: it returns the struct handed to `DecodeElement` together with
the error of that call, never the nil scheme of the unknown-tag branch.  When moreover the
`xsi:type` attribute of the element carries `s.GetType()` and the element decodes without
error, the scheme returned has the variant of `s` and the same `GetType()`. -/
theorem constructors_roundtrip_type_tag (pkg : Pkg) (lib : XmlLib) (dec : Decoder)
    (start : StartElement) :
    (∀ enhancedCpcEnabled : Bool,
      pkg.findAttr start.Attr xsiType = .ok (NewBiddingScheme enhancedCpcEnabled).GetType →
      (biddingSchemeUnmarshalXML pkg lib dec start).1
          = some (.manualCpc (dec.DecodeBiddingScheme lib
              { Type_ := "ManualCpcBiddingScheme", EnhancedCpcEnabled := false } start).1) ∧
      (biddingSchemeUnmarshalXML pkg lib dec start).2.1
          = (dec.DecodeBiddingScheme lib
              { Type_ := "ManualCpcBiddingScheme", EnhancedCpcEnabled := false } start).2.1 ∧
      ((∀ a ∈ start.Attr, a.Name = xsiType →
          a.Value = (NewBiddingScheme enhancedCpcEnabled).GetType) →
        (dec.DecodeBiddingScheme lib
          { Type_ := "ManualCpcBiddingScheme", EnhancedCpcEnabled := false } start).2.1
            = none →
        ∃ c : BiddingScheme,
          (biddingSchemeUnmarshalXML pkg lib dec start).1 = some (.manualCpc c) ∧
          c.GetType = (NewBiddingScheme enhancedCpcEnabled).GetType)) ∧
    (∀ (targetRoas : Float64) (bidCeiling bidFloor : Option Int),
      pkg.findAttr start.Attr xsiType
          = .ok (NewTargetRoasBiddingScheme targetRoas bidCeiling bidFloor).GetType →
      (biddingSchemeUnmarshalXML pkg lib dec start).1
          = some (.targetRoas (dec.DecodeTargetRoas lib
              { Type_ := "TargetRoasBiddingScheme", TargetRoas := ⟨0⟩, BidCeiling := none,
                BidFloor := none } start).1) ∧
      (biddingSchemeUnmarshalXML pkg lib dec start).2.1
          = (dec.DecodeTargetRoas lib
              { Type_ := "TargetRoasBiddingScheme", TargetRoas := ⟨0⟩, BidCeiling := none,
                BidFloor := none } start).2.1 ∧
      ((∀ a ∈ start.Attr, a.Name = xsiType →
          a.Value = (NewTargetRoasBiddingScheme targetRoas bidCeiling bidFloor).GetType) →
        (dec.DecodeTargetRoas lib
          { Type_ := "TargetRoasBiddingScheme", TargetRoas := ⟨0⟩, BidCeiling := none,
            BidFloor := none } start).2.1 = none →
        ∃ c : TargetRoasBiddingScheme,
          (biddingSchemeUnmarshalXML pkg lib dec start).1 = some (.targetRoas c) ∧
          c.GetType
            = (NewTargetRoasBiddingScheme targetRoas bidCeiling bidFloor).GetType)) := by
  constructor
  · intro e htag
    have htag1 : pkg.findAttr start.Attr xsiType = .ok "ManualCpcBiddingScheme" := htag
    refine ⟨?_, ?_, ?_⟩
    · simp [biddingSchemeUnmarshalXML, htag1]
    · simp [biddingSchemeUnmarshalXML, htag1]
    · intro hattr _
      have hattr1 : ∀ a ∈ start.Attr, a.Name = xsiType → a.Value = "ManualCpcBiddingScheme" :=
        hattr
      refine ⟨(dec.DecodeBiddingScheme lib
        { Type_ := "ManualCpcBiddingScheme", EnhancedCpcEnabled := false } start).1,
        by simp [biddingSchemeUnmarshalXML, htag1], ?_⟩
      simp [BiddingScheme.GetType, NewBiddingScheme, Decoder.DecodeBiddingScheme,
        assignTypeAttr_of_agree _ _ hattr1]
  · intro r ceil floor htag
    have htag1 : pkg.findAttr start.Attr xsiType = .ok "TargetRoasBiddingScheme" := htag
    refine ⟨?_, ?_, ?_⟩
    · simp [biddingSchemeUnmarshalXML, htag1]
    · simp [biddingSchemeUnmarshalXML, htag1]
    · intro hattr _
      have hattr1 : ∀ a ∈ start.Attr, a.Name = xsiType → a.Value = "TargetRoasBiddingScheme" :=
        hattr
      refine ⟨(dec.DecodeTargetRoas lib
        { Type_ := "TargetRoasBiddingScheme", TargetRoas := ⟨0⟩, BidCeiling := none,
          BidFloor := none } start).1,
        by simp [biddingSchemeUnmarshalXML, htag1], ?_⟩
      simp [TargetRoasBiddingScheme.GetType, NewTargetRoasBiddingScheme,
        Decoder.DecodeTargetRoas, assignTypeAttr_of_agree _ _ hattr1]

/-- C11 evaluated on `NewBiddingScheme(true)` out of strict mode and on
`NewTargetRoasBiddingScheme(_, 900000, nil)` in strict mode, each against the start element
that carries its `GetType()`. -/
theorem constructors_roundtrip_type_tag_witness :
    (∃ c : BiddingScheme,
      (biddingSchemeUnmarshalXML laxPkg skipLib (closedBy "biddingScheme")
        (typedStart "biddingScheme" (NewBiddingScheme true).GetType)).1
          = some (.manualCpc c) ∧
      c.GetType = (NewBiddingScheme true).GetType) ∧
    (∃ c : TargetRoasBiddingScheme,
      (biddingSchemeUnmarshalXML strictPkg skipLib (closedBy "biddingScheme")
        (typedStart "biddingScheme"
          (NewTargetRoasBiddingScheme ⟨4616189618054758400⟩ (some 900000) none).GetType)).1
          = some (.targetRoas c) ∧
      c.GetType
        = (NewTargetRoasBiddingScheme ⟨4616189618054758400⟩ (some 900000) none).GetType) :=
  ⟨((constructors_roundtrip_type_tag laxPkg skipLib (closedBy "biddingScheme")
      (typedStart "biddingScheme" (NewBiddingScheme true).GetType)).1 true (by rfl)).2.2
      (by decide) (by rfl),
   ((constructors_roundtrip_type_tag strictPkg skipLib (closedBy "biddingScheme")
      (typedStart "biddingScheme"
        (NewTargetRoasBiddingScheme ⟨4616189618054758400⟩ (some 900000) none).GetType)).2
      ⟨4616189618054758400⟩ (some 900000) none (by rfl)).2.2 (by decide) (by rfl)⟩

end Gads
